import Mathlib

/-!
Verification of the business rules of the `netology.py.diploma` e-commerce
application (Django + DRF) against a shallow embedding of its Python source.

The embedding translates the relevant parts of the source:

* `apps/shop/models.py` — the order status workflow, the relational rows
  (products, sellers, cart line items, shipping addresses, orders, order line
  items) and `OrderLineItem.clean`;
* `apps/shop/serializers.py` — `OrderSerializer.validate_status`,
  `LineItemSerializer.validate`, `CartLineItemCreateSerializer.validate_product_id`;
* `apps/shop/views_api.py` — the cart, shipping-address and order view sets,
  in particular `OrderViewSet.create` (order splitting by seller);
* `apps/accounts/models.py` / `apps/accounts/views_api.py` /
  `apps/accounts/serializers.py` — `UserToken`, `protected_action`,
  `send_token_email`, the verify and restore endpoints.

The database is modelled as lists of rows; querysets become list filters;
Django's autoincrement primary keys become explicit counters; the clock and
the random token generator become parameters.  Row payload fields that no
verified claim inspects (address street, phone number, product title, …) are
elided from the row structures.
-/

deriving instance DecidableEq for Except

namespace Shop

/-- Order status, the `Order.Status` text choices of `apps/shop/models.py`. -/
inductive OrderStatus where
  | pending
  | confirmed
  | shipping
  | completed
  | canceled
deriving DecidableEq, Repr, Fintype

/-- The stored text of a status (the `TextChoices` values). -/
def OrderStatus.value : OrderStatus → String
  | .pending => "Pending"
  | .confirmed => "Confirmed"
  | .shipping => "Shipping"
  | .completed => "Completed"
  | .canceled => "Canceled"

/-- `Order.status_workflow` from `apps/shop/models.py`: for each current
status, the tuple of statuses an order may move to. -/
def status_workflow : OrderStatus → List OrderStatus
  | .pending => [.confirmed, .canceled]
  | .confirmed => [.shipping, .canceled]
  | .shipping => [.completed, .canceled]
  | .completed => []
  | .canceled => []

/-- The message of the `ValidationError` raised by
`OrderSerializer.validate_status`:
`f"Allowed statuses: {', '.join(allowed_statuses)}"`. -/
def statusErrorMessage (instanceStatus : OrderStatus) : String :=
  "Allowed statuses: " ++
    String.intercalate ", " ((status_workflow instanceStatus).map OrderStatus.value)

/-- `OrderSerializer.validate_status` from `apps/shop/serializers.py`, in the
update case (`self.instance` present): the new value is returned unchanged if
it is in the workflow allow-list of the instance's current status, otherwise a
`ValidationError` naming the allowed statuses is raised. -/
def validate_status (instanceStatus : OrderStatus) (value : OrderStatus) :
    Except String OrderStatus :=
  if value ∈ status_workflow instanceStatus then .ok value
  else .error (statusErrorMessage instanceStatus)

/-- A seller profile row (`Seller` in `apps/shop/models.py`). -/
structure Seller where
  id : Nat
  userId : Nat
  isActive : Bool
deriving DecidableEq, Repr

/-- A product row (`Product` in `apps/shop/models.py`).  `quantity` is the
stock quantity. -/
structure Product where
  id : Nat
  categoryId : Nat
  sellerId : Nat
  quantity : Nat
  listPrice : Nat
deriving DecidableEq, Repr

/-- A cart line item row (`CartLineItem` in `apps/shop/models.py`). -/
structure CartLineItem where
  id : Nat
  userId : Nat
  productId : Nat
  quantity : Nat
deriving DecidableEq, Repr

/-- A shipping address row (`ShippingAddress` in `apps/shop/models.py`).  The
address payload fields (full name, phone, street, …), which no verified claim
inspects, are elided. -/
structure ShippingAddress where
  id : Nat
  userId : Nat
deriving DecidableEq, Repr

/-- An order row (`Order` in `apps/shop/models.py`). -/
structure Order where
  id : Nat
  sellerId : Nat
  shippingAddressId : Nat
  status : OrderStatus
deriving DecidableEq, Repr

/-- An order line item row (`OrderLineItem` in `apps/shop/models.py`). -/
structure OrderLineItem where
  id : Nat
  orderId : Nat
  productId : Nat
  quantity : Nat
deriving DecidableEq, Repr

/-- The relational state of the shop application: one list of rows per table,
plus the autoincrement counters for the primary keys the modelled operations
allocate. -/
structure ShopDB where
  sellers : List Seller
  products : List Product
  cartItems : List CartLineItem
  addresses : List ShippingAddress
  orders : List Order
  orderItems : List OrderLineItem
  nextCartItemId : Nat
  nextOrderId : Nat
  nextOrderItemId : Nat
deriving DecidableEq, Repr

/-- `Product.objects.get(id=pid)` / following a `product` foreign key. -/
def ShopDB.findProduct (db : ShopDB) (pid : Nat) : Option Product :=
  db.products.find? fun p => p.id == pid

/-- Following a `seller` foreign key. -/
def ShopDB.findSeller (db : ShopDB) (sid : Nat) : Option Seller :=
  db.sellers.find? fun s => s.id == sid

/-- Following a `shipping_address` foreign key. -/
def ShopDB.findAddress (db : ShopDB) (aid : Nat) : Option ShippingAddress :=
  db.addresses.find? fun a => a.id == aid

/-- `CartLineItemViewSet.get_queryset`: the current user's cart line items
(`.filter(user=self.request.user)`). -/
def ShopDB.cartOf (db : ShopDB) (u : Nat) : List CartLineItem :=
  db.cartItems.filter fun it => it.userId == u

/-- `ShippingAddressViewSet.get_queryset`: the current user's shipping
addresses. -/
def ShopDB.addressesOf (db : ShopDB) (u : Nat) : List ShippingAddress :=
  db.addresses.filter fun a => a.userId == u

/-- `Seller.objects.filter(is_active=True, products__id=pid).exists()`, the
seller-activity check of `CartLineItemCreateSerializer.validate_product_id`
(and, with the product row already in hand, of `LineItemSerializer.validate`). -/
def sellerIsActiveFor (db : ShopDB) (pid : Nat) : Bool :=
  db.sellers.any fun s =>
    s.isActive && (db.products.any fun p => p.id == pid && p.sellerId == s.id)

/-- Errors of the cart-item create endpoint (`CartLineItemViewSet.create`),
each a 400 response: the three serializer `ValidationError`s and the
`IntegrityError` raised by the `unique_user_product` constraint. -/
inductive CartCreateError where
  | productDoesNotExist
  | sellerNotActive
  | quantityExceedsStock
  | productAlreadyInCart
deriving DecidableEq, Repr

/-- `CartLineItemViewSet.create` with `CartLineItemCreateSerializer`: the
serializer validates `product_id` (existence, active seller) and then the
quantity against the product stock (`LineItemSerializer.validate`; on create
there is no instance, so the seller check there is skipped, and a missing or
zero quantity is falsy and skips the stock check).  `perform_create` inserts
the row for the current user; a duplicate `(user, product)` pair raises
`IntegrityError`.  On success the endpoint returns the full cart.  A missing
`quantity` is stored as the model default 1. -/
def cartItemCreate (db : ShopDB) (u pid : Nat) (qty? : Option Nat) :
    ShopDB × Except CartCreateError (List CartLineItem) :=
  if !(db.products.any fun p => p.id == pid) then
    (db, .error .productDoesNotExist)
  else if !(sellerIsActiveFor db pid) then
    (db, .error .sellerNotActive)
  else
    let stockExceeded :=
      (qty?.getD 0 != 0) &&
        (match db.findProduct pid with
         | some product => decide (product.quantity < qty?.getD 0)
         | none => false)
    if stockExceeded then
      (db, .error .quantityExceedsStock)
    else if db.cartItems.any fun it => it.userId == u && it.productId == pid then
      (db, .error .productAlreadyInCart)
    else
      let item : CartLineItem := ⟨db.nextCartItemId, u, pid, qty?.getD 1⟩
      let db' := { db with
        cartItems := db.cartItems ++ [item],
        nextCartItemId := db.nextCartItemId + 1 }
      (db', .ok (db'.cartOf u))

/-- Errors of the cart-item update endpoint
(`CartLineItemViewSet.partial_update`): a 404 when the item is not in the
current user's queryset, and the serializer `ValidationError`s. -/
inductive CartUpdateError where
  | notFound
  | sellerNotActive
  | quantityExceedsStock
deriving DecidableEq, Repr

/-- `CartLineItemViewSet.partial_update`: the object is fetched from the
user-filtered queryset (404 otherwise); `LineItemSerializer.validate` then
checks that the instance's product still has an active seller and, when a
non-zero quantity is supplied, that it does not exceed the product stock;
the save updates the instance's quantity.  On success the endpoint returns
the full cart. -/
def cartItemUpdate (db : ShopDB) (u itemId : Nat) (qty? : Option Nat) :
    ShopDB × Except CartUpdateError (List CartLineItem) :=
  match (db.cartOf u).find? fun it => it.id == itemId with
  | none => (db, .error .notFound)
  | some item =>
    if !(sellerIsActiveFor db item.productId) then
      (db, .error .sellerNotActive)
    else
      let stockExceeded :=
        (qty?.getD 0 != 0) &&
          (match db.findProduct item.productId with
           | some product => decide (product.quantity < qty?.getD 0)
           | none => false)
      if stockExceeded then
        (db, .error .quantityExceedsStock)
      else
        let db' := { db with
          cartItems := db.cartItems.map fun it =>
            if it.id == itemId && it.userId == u then
              { it with quantity := qty?.getD it.quantity }
            else it }
        (db', .ok (db'.cartOf u))

/-- `CartLineItemViewSet.destroy`: the object is fetched from the
user-filtered queryset (404 otherwise, reported as `false`) and deleted. -/
def cartItemDestroy (db : ShopDB) (u itemId : Nat) : ShopDB × Bool :=
  if (db.cartOf u).any fun it => it.id == itemId then
    ({ db with cartItems :=
        db.cartItems.filter fun it => !(it.id == itemId && it.userId == u) },
     true)
  else
    (db, false)

/-- `CartLineItemViewSet.clear`: `self.get_queryset().delete()` — deletes all
the current user's cart line items. -/
def cartClear (db : ShopDB) (u : Nat) : ShopDB :=
  { db with cartItems := db.cartItems.filter fun it => !(it.userId == u) }

/-- `ShippingAddressViewSet.perform_create`: a new address row is always
created for the current user. -/
def addressCreate (db : ShopDB) (u aid : Nat) : ShopDB :=
  { db with addresses := db.addresses ++ [⟨aid, u⟩] }

/-- `ShippingAddressViewSet.destroy` with `ShippingAddressPermission`: the
object is fetched from the user-filtered queryset (404 otherwise); deletion
is denied when related orders exist.  `false` reports a 404/403. -/
def addressDestroy (db : ShopDB) (u aid : Nat) : ShopDB × Bool :=
  if (db.addressesOf u).any fun a => a.id == aid then
    if db.orders.any fun o => o.shippingAddressId == aid then
      (db, false)
    else
      ({ db with addresses :=
          db.addresses.filter fun a => !(a.id == aid && a.userId == u) },
       true)
  else
    (db, false)

/-- `OrderViewSet.get_queryset` in the `list` action: with the `as_seller`
query flag, orders whose seller profile belongs to the current user
(`.filter(seller__user=...)`); otherwise orders whose shipping address
belongs to the current user (`.filter(shipping_address__user=...)`). -/
def orderListQueryset (db : ShopDB) (u : Nat) (asSeller : Bool) : List Order :=
  if asSeller then
    db.orders.filter fun o => (db.findSeller o.sellerId).any fun s => s.userId == u
  else
    db.orders.filter fun o =>
      (db.findAddress o.shippingAddressId).any fun a => a.userId == u

/-- `OrderLineItem.clean` from `apps/shop/models.py`: model validation passes
exactly when the line item's product belongs to the order's seller
(`self.product.seller.pk == self.order.seller.pk`); the arguments are the
rows the two foreign keys resolve to. -/
def orderLineItemCleanOk (product : Product) (order : Order) : Bool :=
  product.sellerId == order.sellerId

/-- The conditions on a stored `OrderLineItem` row that foreign-key and
uniqueness constraints can express: the `order` and `product` foreign keys
resolve, and the `(order, product)` pair is unique
(`unique_order_product`). -/
def orderLineItemFkUniqueOk (db : ShopDB) (li : OrderLineItem) : Bool :=
  (db.orders.any fun o => o.id == li.orderId) &&
  (db.products.any fun p => p.id == li.productId) &&
  !(db.orderItems.any fun li' =>
      li'.orderId == li.orderId && li'.productId == li.productId)

/-- Errors of `OrderViewSet.create`, each a 400 response.
`brokenProductReference` is unreachable when foreign-key integrity holds; it
models the impossibility of the `select_related('product')` join losing a
row. -/
inductive OrderCreateError where
  | invalidShippingAddress
  | emptyCart
  | quantityExceedsStock (products : List Product)
  | brokenProductReference
deriving DecidableEq, Repr

/-- Pair every cart line item with its product row, as the
`select_related('product')` queryset of `OrderViewSet.create` does.  `none`
only if a `product` foreign key dangles, which integrity rules out. -/
def resolveCart (db : ShopDB) (items : List CartLineItem) :
    Option (List (CartLineItem × Product)) :=
  items.mapM fun it => (db.findProduct it.productId).map fun p => (it, p)

/-- Lookup in the `orders` dictionary of `OrderViewSet.create`, keyed by
seller id and valued by the id of the order created for that seller. -/
def lookupSellerOrder (s : Nat) : List (Nat × Nat) → Option Nat
  | [] => none
  | (k, v) :: rest => if k = s then some v else lookupSellerOrder s rest

/-- The grouping loop of `OrderViewSet.create`: walk the cart in order; for a
line item whose product's seller has no order yet, create a new `Order` for
that seller with the given shipping address (status defaults to `Pending`),
then copy the line item's product and quantity into the seller's order.
`sellerOrders` is the loop's dictionary, `nextOrderId` and `nextItemId` the
autoincrement counters; the result lists the created orders (in
first-occurrence order of their sellers, as `orders.values()` is) and the
created order line items. -/
def groupCart (saId : Nat) :
    List (CartLineItem × Product) → List (Nat × Nat) → Nat → Nat →
    List Order × List OrderLineItem
  | [], _, _, _ => ([], [])
  | (it, p) :: rest, sellerOrders, nextOrderId, nextItemId =>
    match lookupSellerOrder p.sellerId sellerOrders with
    | some oid =>
      let r := groupCart saId rest sellerOrders nextOrderId (nextItemId + 1)
      (r.1, ⟨nextItemId, oid, it.productId, it.quantity⟩ :: r.2)
    | none =>
      let r := groupCart saId rest ((p.sellerId, nextOrderId) :: sellerOrders)
        (nextOrderId + 1) (nextItemId + 1)
      (⟨nextOrderId, p.sellerId, saId, .pending⟩ :: r.1,
       ⟨nextItemId, nextOrderId, it.productId, it.quantity⟩ :: r.2)

/-- `OrderViewSet.create` from `apps/shop/views_api.py`: validate that the
shipping address exists and belongs to the current user, that the user's cart
is not empty, and that no cart quantity exceeds its product's stock (the
offending products are reported); then split the cart into one order per
distinct seller, copy the line items, clear the cart, and return the created
orders. -/
def orderCreate (db : ShopDB) (u saId : Nat) :
    ShopDB × Except OrderCreateError (List Order) :=
  if !(db.addresses.any fun a => a.id == saId && a.userId == u) then
    (db, .error .invalidShippingAddress)
  else if (db.cartOf u).isEmpty then
    (db, .error .emptyCart)
  else
    match resolveCart db (db.cartOf u) with
    | none => (db, .error .brokenProductReference)
    | some cart =>
      let exceedances :=
        (cart.filter fun x => decide (x.2.quantity < x.1.quantity)).map fun x => x.2
      if !exceedances.isEmpty then
        (db, .error (.quantityExceedsStock exceedances))
      else
        let r := groupCart saId cart [] db.nextOrderId db.nextOrderItemId
        let db' := { db with
          orders := db.orders ++ r.1,
          orderItems := db.orderItems ++ r.2,
          cartItems := db.cartItems.filter fun it => !(it.userId == u),
          nextOrderId := db.nextOrderId + r.1.length,
          nextOrderItemId := db.nextOrderItemId + r.2.length }
        (db', .ok r.1)

end Shop

namespace Accounts

/-- A user row (`User` in `apps/accounts/models.py`).  Fields no verified
claim inspects (names, staff flags, timestamps) are elided. -/
structure User where
  id : Nat
  email : String
  password : String
  isActive : Bool
  isVerified : Bool
deriving DecidableEq, Repr

/-- A `UserToken` row (`apps/accounts/models.py`): a one-to-one token used to
confirm user emails and restore passwords.  `UserToken.save` generates the
value with `secrets.token_urlsafe(32)` and sets
`expires_at = timezone.now() + settings.USER_TOKEN_LIFETIME`; time is
modelled as a natural number. -/
structure UserToken where
  userId : Nat
  value : String
  expiresAt : Nat
deriving DecidableEq, Repr

/-- The relational state of the accounts application. -/
structure AccountsDB where
  users : List User
  tokens : List UserToken
deriving DecidableEq, Repr

/-- An HTTP response, reduced to the status code and the `detail` message. -/
structure Response where
  status : Nat
  detail : String
deriving DecidableEq, Repr

/-- `AccountViewSet.send_token_email`: delete any existing token of the user
(`UserToken.objects.filter(user_id=user.pk).delete()`), then create a fresh
one whose value (`secrets.token_urlsafe(32)`) and expiry clock are parameters
of the model. -/
def sendTokenEmail (db : AccountsDB) (uid : Nat) (freshValue : String)
    (now lifetime : Nat) : AccountsDB :=
  { db with tokens :=
      (db.tokens.filter fun t => !(t.userId == uid)) ++
        [⟨uid, freshValue, now + lifetime⟩] }

/-- `AccountViewSet.protected_action` from `apps/accounts/views_api.py`: look
the user up (404 otherwise); if a truthy `token` value was posted (Python's
`if value := request.data.get('token')` — a missing or empty string is
falsy), fetch the user's token with that value (404 "Token does not exist."
if none), delete it, and either report expiry
(`timezone.now() > token.expires_at` → 404 "Token has expired.") or run the
callback; otherwise send a new token email.  The callback returns the updated
user row and a success message, or serializer validation errors (→ 400). -/
def protectedAction (db : AccountsDB) (now uid : Nat)
    (tokenValue : Option String) (freshValue : String) (lifetime : Nat)
    (cb : User → Except (List String) (User × String)) :
    AccountsDB × Response :=
  match db.users.find? fun w => w.id == uid with
  | none => (db, ⟨404, "User does not exist."⟩)
  | some user =>
    let v := tokenValue.getD ""
    if v == "" then
      (sendTokenEmail db uid freshValue now lifetime, ⟨200, "Email sent."⟩)
    else
      match db.tokens.find? fun t => t.userId == uid && t.value == v with
      | none => (db, ⟨404, "Token does not exist."⟩)
      | some t =>
        let db1 := { db with
          tokens := db.tokens.filter fun t' =>
            !(t'.userId == uid && t'.value == v) }
        if t.expiresAt < now then
          (db1, ⟨404, "Token has expired."⟩)
        else
          match cb user with
          | .ok (user', message) =>
            ({ db1 with
                users := db1.users.map fun w =>
                  if w.id == uid then user' else w },
             ⟨200, message⟩)
          | .error messages =>
            (db1, ⟨400, String.intercalate " " messages⟩)

/-- The callback of `AccountViewSet.verify` (`verify_email`): mark the user
verified and report "Email verified.". -/
def verifyEmailCb (user : User) : Except (List String) (User × String) :=
  .ok ({ user with isVerified := true }, "Email verified.")

/-- The callback of `AccountViewSet.restore` (`reset_password`):
`UserPasswordSerializer` requires a `password` and validates it with the
configured Django password validators (modelled by `pwErrors`, the list of
validation messages, empty when the password is accepted); on success the
user's password is set to its hash (`set_password` / `make_password`,
modelled by `makePassword`). -/
def resetPasswordCb (pwErrors : String → List String)
    (makePassword : String → String) (password? : Option String)
    (user : User) : Except (List String) (User × String) :=
  match password? with
  | none => .error ["This field is required."]
  | some pw =>
    if (pwErrors pw).isEmpty then
      .ok ({ user with password := makePassword pw }, "Password reset.")
    else
      .error (pwErrors pw)

/-- The `verify` endpoint (`AccountViewSet.verify`). -/
def verifyEndpoint (db : AccountsDB) (now uid : Nat)
    (tokenValue : Option String) (freshValue : String) (lifetime : Nat) :
    AccountsDB × Response :=
  protectedAction db now uid tokenValue freshValue lifetime verifyEmailCb

/-- The `restore` endpoint (`AccountViewSet.restore`). -/
def restoreEndpoint (db : AccountsDB) (now uid : Nat)
    (tokenValue password? : Option String) (freshValue : String)
    (lifetime : Nat) (pwErrors : String → List String)
    (makePassword : String → String) : AccountsDB × Response :=
  protectedAction db now uid tokenValue freshValue lifetime
    (resetPasswordCb pwErrors makePassword password?)

end Accounts

/-! Concrete sample states used to instantiate the theorems. -/

/-- A sample shop state: two active sellers (1 for user 10, 2 for user 11),
three products (1 and 3 from seller 1, 2 from seller 2, stock 5 each),
user 20's cart holding all three products, one extra cart row for user 21,
and one shipping address per user. -/
def sampleShopDB : Shop.ShopDB := {
  sellers := [⟨1, 10, true⟩, ⟨2, 11, true⟩],
  products := [⟨1, 1, 1, 5, 100⟩, ⟨2, 1, 2, 5, 200⟩, ⟨3, 1, 1, 5, 300⟩],
  cartItems := [⟨1, 20, 1, 2⟩, ⟨2, 20, 2, 3⟩, ⟨3, 20, 3, 1⟩, ⟨4, 21, 1, 1⟩],
  addresses := [⟨1, 20⟩, ⟨2, 21⟩],
  orders := [],
  orderItems := [],
  nextCartItemId := 5,
  nextOrderId := 1,
  nextOrderItemId := 1 }

/-- User 20's cart in `sampleShopDB`, resolved against the product table. -/
def sampleCart : List (Shop.CartLineItem × Shop.Product) :=
  [(⟨1, 20, 1, 2⟩, ⟨1, 1, 1, 5, 100⟩),
   (⟨2, 20, 2, 3⟩, ⟨2, 1, 2, 5, 200⟩),
   (⟨3, 20, 3, 1⟩, ⟨3, 1, 1, 5, 300⟩)]

/-- A sample shop state holding one pending order of seller 1: product 1
belongs to seller 2, so an order line item joining them violates
`OrderLineItem.clean` while satisfying every foreign-key and uniqueness
constraint. -/
def mismatchShopDB : Shop.ShopDB := {
  sellers := [⟨1, 10, true⟩, ⟨2, 11, true⟩],
  products := [⟨1, 1, 2, 5, 100⟩],
  cartItems := [],
  addresses := [⟨1, 20⟩],
  orders := [⟨1, 1, 1, .pending⟩],
  orderItems := [],
  nextCartItemId := 1,
  nextOrderId := 2,
  nextOrderItemId := 1 }

/-- A sample accounts state: one user and one stored token (value `"tok"`,
expiring at time 10). -/
def sampleAccountsDB : Accounts.AccountsDB := {
  users := [⟨1, "user@example.com", "oldhash", true, false⟩],
  tokens := [⟨1, "tok", 10⟩] }

/-- A sample password validator accepting passwords of length at least 8
(standing in for Django's configured `AUTH_PASSWORD_VALIDATORS`). -/
def samplePwErrors (pw : String) : List String :=
  if pw.length < 8 then ["This password is too short."] else []

/-- A sample injective stand-in for Django's salted `make_password`. -/
def sampleMakePassword (pw : String) : String :=
  "hashed:" ++ pw

namespace Shop

theorem lookupSellerOrder_mem {s v : Nat} :
    ∀ {m : List (Nat × Nat)}, lookupSellerOrder s m = some v → (s, v) ∈ m := by
  intro m
  induction m with
  | nil => intro h; simp [lookupSellerOrder] at h
  | cons kv rest ih =>
    intro h
    rw [lookupSellerOrder] at h
    by_cases hk : kv.1 = s
    · rw [if_pos hk] at h
      cases h
      have hkv : (s, kv.2) = kv := by
        cases kv
        simp_all
      rw [hkv]
      exact List.mem_cons_self _ _
    · rw [if_neg hk] at h
      exact List.mem_cons_of_mem _ (ih h)

/-- Orders created by the grouping loop carry the given shipping address, the
default `Pending` status, and ids at least the initial counter value. -/
theorem groupCart_orders_shape (saId : Nat) :
    ∀ (items : List (CartLineItem × Product)) (m : List (Nat × Nat)) (nid iid : Nat),
      ∀ o ∈ (groupCart saId items m nid iid).1,
        o.shippingAddressId = saId ∧ o.status = .pending ∧ nid ≤ o.id := by
  intro items
  induction items with
  | nil => intro m nid iid o ho; simp [groupCart] at ho
  | cons x rest ih =>
    intro m nid iid o ho
    rw [groupCart] at ho
    cases h : lookupSellerOrder x.2.sellerId m with
    | some oid =>
      rw [h] at ho
      exact ih m nid (iid + 1) o ho
    | none =>
      rw [h] at ho
      rcases List.mem_cons.mp ho with rfl | ho'
      · exact ⟨rfl, rfl, Nat.le_refl _⟩
      · have := ih ((x.2.sellerId, nid) :: m) (nid + 1) (iid + 1) o ho'
        exact ⟨this.1, this.2.1, Nat.le_of_succ_le this.2.2⟩

/-- A seller has an order among the orders created by the grouping loop iff it
is not yet in the loop's dictionary and occurs among the items' products. -/
theorem groupCart_seller_mem (saId : Nat) :
    ∀ (items : List (CartLineItem × Product)) (m : List (Nat × Nat)) (nid iid s : Nat),
      s ∈ (groupCart saId items m nid iid).1.map Order.sellerId ↔
        (lookupSellerOrder s m = none ∧
          s ∈ items.map fun x => x.2.sellerId) := by
  intro items
  induction items with
  | nil => intro m nid iid s; simp [groupCart]
  | cons x rest ih =>
    intro m nid iid s
    rw [groupCart]
    cases h : lookupSellerOrder x.2.sellerId m with
    | some oid =>
      rw [ih]
      simp only [List.map_cons, List.mem_cons]
      constructor
      · rintro ⟨h1, h2⟩
        exact ⟨h1, Or.inr h2⟩
      · rintro ⟨h1, h2 | h2⟩
        · rw [h2] at h1
          rw [h1] at h
          simp at h
        · exact ⟨h1, h2⟩
    | none =>
      simp only [List.map_cons, List.mem_cons, ih]
      rw [lookupSellerOrder]
      by_cases hs : x.2.sellerId = s
      · subst hs
        simp [h]
      · rw [if_neg hs]
        constructor
        · rintro (rfl | ⟨h1, h2⟩)
          · exact absurd rfl hs
          · exact ⟨h1, Or.inr h2⟩
        · rintro ⟨h1, h2 | h2⟩
          · exact absurd h2.symm hs
          · exact Or.inr ⟨h1, h2⟩

/-- The line items the grouping loop attaches to the order id that the
dictionary assigns to seller `s` are exactly the items whose product belongs
to `s`, with product and quantity copied.  The hypotheses say that the
dictionary's order ids are below the order-id counter and that no other
seller maps to `oid`; both hold for every dictionary the loop builds. -/
theorem groupCart_items_of_lookup (saId : Nat) :
    ∀ (items : List (CartLineItem × Product)) (m : List (Nat × Nat)) (nid iid s oid : Nat),
      lookupSellerOrder s m = some oid →
      (∀ kv ∈ m, kv.2 < nid) →
      (∀ s' oid', lookupSellerOrder s' m = some oid' → s' ≠ s → oid' ≠ oid) →
      ((groupCart saId items m nid iid).2.filter fun li => li.orderId == oid).map
          (fun li => (li.productId, li.quantity)) =
        (items.filter fun x => x.2.sellerId == s).map
          fun x => (x.1.productId, x.1.quantity) := by
  intro items
  induction items with
  | nil => intro m nid iid s oid hs hv hinj; simp [groupCart]
  | cons x rest ih =>
    intro m nid iid s oid hs hv hinj
    rw [groupCart]
    cases h : lookupSellerOrder x.2.sellerId m with
    | some oid' =>
      by_cases hx : x.2.sellerId = s
      · have hoid : oid' = oid := by
          rw [hx] at h
          rw [h] at hs
          exact Option.some_inj.mp hs
        subst hoid
        simp only [List.filter_cons, List.map_cons]
        rw [if_pos (by simp), if_pos (by simp [hx])]
        simp only [List.map_cons]
        exact congrArg _ (ih m nid (iid + 1) s oid' hs hv hinj)
      · have hoid : oid' ≠ oid := hinj _ _ h hx
        simp only [List.filter_cons]
        rw [if_neg (by simp [hoid]), if_neg (by simp [hx])]
        exact ih m nid (iid + 1) s oid hs hv hinj
    | none =>
      have hx : x.2.sellerId ≠ s := by
        intro e
        rw [e] at h
        rw [h] at hs
        cases hs
      have hoid : oid < nid := hv _ (lookupSellerOrder_mem hs)
      simp only [List.filter_cons]
      rw [if_neg (by simp; omega), if_neg (by simp [hx])]
      refine ih ((x.2.sellerId, nid) :: m) (nid + 1) (iid + 1) s oid ?_ ?_ ?_
      · rw [lookupSellerOrder, if_neg hx]
        exact hs
      · intro kv hkv
        rcases List.mem_cons.mp hkv with rfl | hkv'
        · exact Nat.lt_succ_self _
        · exact Nat.lt_succ_of_lt (hv _ hkv')
      · intro s' oid'' hlk hne
        rw [lookupSellerOrder] at hlk
        by_cases hs' : x.2.sellerId = s'
        · rw [if_pos hs'] at hlk
          cases hlk
          omega
        · rw [if_neg hs'] at hlk
          exact hinj _ _ hlk hne

/-- Each order the grouping loop creates collects exactly the items of its
seller, with product and quantity copied. -/
theorem groupCart_order_line_items (saId : Nat) :
    ∀ (items : List (CartLineItem × Product)) (m : List (Nat × Nat)) (nid iid : Nat),
      (∀ kv ∈ m, kv.2 < nid) →
      ∀ o ∈ (groupCart saId items m nid iid).1,
        ((groupCart saId items m nid iid).2.filter fun li => li.orderId == o.id).map
            (fun li => (li.productId, li.quantity)) =
          (items.filter fun x => x.2.sellerId == o.sellerId).map
            fun x => (x.1.productId, x.1.quantity) := by
  intro items
  induction items with
  | nil => intro m nid iid hv o ho; simp [groupCart] at ho
  | cons x rest ih =>
    intro m nid iid hv o ho
    rw [groupCart] at ho ⊢
    cases h : lookupSellerOrder x.2.sellerId m with
    | some oid =>
      rw [h] at ho
      dsimp only at ho ⊢
      have hoid : oid < nid := hv _ (lookupSellerOrder_mem h)
      have hid : nid ≤ o.id :=
        (groupCart_orders_shape saId rest m nid (iid + 1) o ho).2.2
      have hnone : lookupSellerOrder o.sellerId m = none :=
        ((groupCart_seller_mem saId rest m nid (iid + 1) o.sellerId).mp
          (List.mem_map_of_mem Order.sellerId ho)).1
      have hneq : x.2.sellerId ≠ o.sellerId := by
        intro e
        rw [← e] at hnone
        rw [hnone] at h
        cases h
      simp only [List.filter_cons]
      rw [if_neg (by simp; omega), if_neg (by simp [hneq])]
      exact ih m nid (iid + 1) hv o ho
    | none =>
      rw [h] at ho
      dsimp only at ho ⊢
      rcases List.mem_cons.mp ho with rfl | ho'
      · simp only [List.filter_cons, List.map_cons]
        rw [if_pos (by simp), if_pos (by simp)]
        simp only [List.map_cons]
        refine congrArg _
          (groupCart_items_of_lookup saId rest ((x.2.sellerId, nid) :: m)
            (nid + 1) (iid + 1) x.2.sellerId nid ?_ ?_ ?_)
        · rw [lookupSellerOrder, if_pos rfl]
        · intro kv hkv
          rcases List.mem_cons.mp hkv with rfl | hkv'
          · exact Nat.lt_succ_self _
          · exact Nat.lt_succ_of_lt (hv _ hkv')
        · intro s' oid'' hlk hne
          rw [lookupSellerOrder] at hlk
          by_cases hs' : x.2.sellerId = s'
          · exact absurd hs'.symm hne
          · rw [if_neg hs'] at hlk
            have := hv _ (lookupSellerOrder_mem hlk)
            omega
      · have hv' : ∀ kv ∈ (x.2.sellerId, nid) :: m, kv.2 < nid + 1 := by
          intro kv hkv
          rcases List.mem_cons.mp hkv with rfl | hkv'
          · exact Nat.lt_succ_self _
          · exact Nat.lt_succ_of_lt (hv _ hkv')
        have hid : nid + 1 ≤ o.id :=
          (groupCart_orders_shape saId rest _ (nid + 1) (iid + 1) o ho').2.2
        have hnone : lookupSellerOrder o.sellerId ((x.2.sellerId, nid) :: m) = none :=
          ((groupCart_seller_mem saId rest _ (nid + 1) (iid + 1) o.sellerId).mp
            (List.mem_map_of_mem Order.sellerId ho')).1
        have hneq : x.2.sellerId ≠ o.sellerId := by
          intro e
          rw [lookupSellerOrder, if_pos e] at hnone
          cases hnone
        simp only [List.filter_cons]
        rw [if_neg (by simp; omega), if_neg (by simp [hneq])]
        exact ih _ (nid + 1) (iid + 1) hv' o ho'

/-- The orders created by the grouping loop have pairwise distinct sellers. -/
theorem groupCart_sellers_nodup (saId : Nat) :
    ∀ (items : List (CartLineItem × Product)) (m : List (Nat × Nat)) (nid iid : Nat),
      ((groupCart saId items m nid iid).1.map Order.sellerId).Nodup := by
  intro items
  induction items with
  | nil => intro m nid iid; simp [groupCart]
  | cons x rest ih =>
    intro m nid iid
    rw [groupCart]
    cases h : lookupSellerOrder x.2.sellerId m with
    | some oid => exact ih m nid (iid + 1)
    | none =>
      simp only [List.map_cons, List.nodup_cons]
      refine ⟨fun hmem => ?_, ih _ _ _⟩
      have := (groupCart_seller_mem saId rest _ (nid + 1) (iid + 1) x.2.sellerId).mp hmem
      rw [lookupSellerOrder, if_pos rfl] at this
      exact Option.some_ne_none _ this.1

/-- Under the three preconditions of `OrderViewSet.create` (valid address,
non-empty cart, no stock exceedance) the operation computes exactly the
grouped orders and line items, appends them, and clears the user's cart. -/
theorem orderCreate_success_eq (db : ShopDB) (u saId : Nat)
    (cart : List (CartLineItem × Product))
    (haddr : (db.addresses.any fun a => a.id == saId && a.userId == u) = true)
    (hne : (db.cartOf u).isEmpty = false)
    (hres : resolveCart db (db.cartOf u) = some cart)
    (hstock : ∀ x ∈ cart, x.1.quantity ≤ x.2.quantity) :
    orderCreate db u saId =
      ({ db with
          orders := db.orders ++
            (groupCart saId cart [] db.nextOrderId db.nextOrderItemId).1,
          orderItems := db.orderItems ++
            (groupCart saId cart [] db.nextOrderId db.nextOrderItemId).2,
          cartItems := db.cartItems.filter fun it => !(it.userId == u),
          nextOrderId := db.nextOrderId +
            (groupCart saId cart [] db.nextOrderId db.nextOrderItemId).1.length,
          nextOrderItemId := db.nextOrderItemId +
            (groupCart saId cart [] db.nextOrderId db.nextOrderItemId).2.length },
       .ok (groupCart saId cart [] db.nextOrderId db.nextOrderItemId).1) := by
  have hfilter : (cart.filter fun x => decide (x.2.quantity < x.1.quantity)) = [] :=
    List.filter_eq_nil_iff.mpr fun a ha => by
      simpa using Nat.not_lt.mpr (hstock a ha)
  rw [orderCreate, haddr, hne, hres]
  dsimp only
  rw [hfilter]
  rfl

/-- When the shipping address does not exist or belongs to another user,
`OrderViewSet.create` fails with the `shipping_address_id` validation error
and leaves the database unchanged. -/
theorem orderCreate_invalid_address (db : ShopDB) (u saId : Nat)
    (haddr : (db.addresses.any fun a => a.id == saId && a.userId == u) = false) :
    orderCreate db u saId = (db, .error .invalidShippingAddress) := by
  rw [orderCreate, haddr]
  rfl

/-- When the address is valid but the cart is empty, `OrderViewSet.create`
returns the "The cart is empty." response and leaves the database
unchanged. -/
theorem orderCreate_empty_cart (db : ShopDB) (u saId : Nat)
    (haddr : (db.addresses.any fun a => a.id == saId && a.userId == u) = true)
    (hempty : db.cartOf u = []) :
    orderCreate db u saId = (db, .error .emptyCart) := by
  rw [orderCreate, haddr, hempty]
  rfl

/-- When some cart quantity exceeds its product's stock,
`OrderViewSet.create` returns the "Quantity exceeds the stock." response
listing exactly the offending products, and leaves the database unchanged. -/
theorem orderCreate_stock_exceeded (db : ShopDB) (u saId : Nat)
    (cart : List (CartLineItem × Product))
    (haddr : (db.addresses.any fun a => a.id == saId && a.userId == u) = true)
    (hne : (db.cartOf u).isEmpty = false)
    (hres : resolveCart db (db.cartOf u) = some cart)
    (hexc : (cart.filter fun x => decide (x.2.quantity < x.1.quantity)) ≠ []) :
    orderCreate db u saId =
      (db, .error (.quantityExceedsStock
        ((cart.filter fun x => decide (x.2.quantity < x.1.quantity)).map
          fun x => x.2))) := by
  have h5 : (((cart.filter fun x => decide (x.2.quantity < x.1.quantity)).map
      fun x => x.2).isEmpty) = false := by
    simp [List.isEmpty_iff, hexc]
  rw [orderCreate, haddr, hne, hres]
  dsimp only
  rw [h5]
  rfl

/-- `OrderViewSet.create` returns created orders only when all three
preconditions hold. -/
theorem orderCreate_ok_inversion (db : ShopDB) (u saId : Nat)
    (db' : ShopDB) (os : List Order)
    (h : orderCreate db u saId = (db', .ok os)) :
    (db.addresses.any fun a => a.id == saId && a.userId == u) = true ∧
    (db.cartOf u).isEmpty = false ∧
    ∃ cart, resolveCart db (db.cartOf u) = some cart ∧
      ∀ x ∈ cart, x.1.quantity ≤ x.2.quantity := by
  rw [orderCreate] at h
  cases h1 : (db.addresses.any fun a => a.id == saId && a.userId == u) with
  | false => rw [h1] at h; simp at h
  | true =>
    rw [h1] at h
    cases h2 : (db.cartOf u).isEmpty with
    | true => rw [h2] at h; simp at h
    | false =>
      rw [h2] at h
      cases h3 : resolveCart db (db.cartOf u) with
      | none => rw [h3] at h; simp at h
      | some cart =>
        rw [h3] at h
        dsimp only at h
        by_cases h4 :
            (cart.filter fun x => decide (x.2.quantity < x.1.quantity)) = []
        · refine ⟨rfl, rfl, cart, rfl, fun x hx => ?_⟩
          by_contra hlt
          have : x ∈ cart.filter fun x => decide (x.2.quantity < x.1.quantity) :=
            List.mem_filter.mpr ⟨hx, by simpa using Nat.lt_of_not_le hlt⟩
          rw [h4] at this
          cases this
        · have h5 :
              ((cart.filter fun x => decide (x.2.quantity < x.1.quantity)).map
                fun x => x.2).isEmpty = false := by
            simp [List.isEmpty_iff, h4]
          rw [h5] at h
          simp at h

/-- When a cart line item's `product` foreign key dangles (impossible under
referential integrity), the operation fails before any write. -/
theorem orderCreate_broken_ref (db : ShopDB) (u saId : Nat)
    (haddr : (db.addresses.any fun a => a.id == saId && a.userId == u) = true)
    (hne : (db.cartOf u).isEmpty = false)
    (hres : resolveCart db (db.cartOf u) = none) :
    orderCreate db u saId = (db, .error .brokenProductReference) := by
  rw [orderCreate, haddr, hne, hres]
  rfl

/-- Every failing `OrderViewSet.create` request leaves the database
untouched: all three checks run before any write. -/
theorem orderCreate_error_unchanged (db : ShopDB) (u saId : Nat)
    (e : OrderCreateError) (h : (orderCreate db u saId).2 = .error e) :
    (orderCreate db u saId).1 = db := by
  cases h1 : (db.addresses.any fun a => a.id == saId && a.userId == u) with
  | false => rw [orderCreate_invalid_address db u saId h1]
  | true =>
    cases hcart : db.cartOf u with
    | nil => rw [orderCreate_empty_cart db u saId h1 hcart]
    | cons c cs =>
      have hne : (db.cartOf u).isEmpty = false := by rw [hcart]; rfl
      cases h3 : resolveCart db (db.cartOf u) with
      | none => rw [orderCreate_broken_ref db u saId h1 hne h3]
      | some cart =>
        by_cases h4 :
            (cart.filter fun x => decide (x.2.quantity < x.1.quantity)) = []
        · have hstock : ∀ x ∈ cart, x.1.quantity ≤ x.2.quantity := by
            intro x hx
            have h5 := List.filter_eq_nil_iff.mp h4 x hx
            simp at h5
            omega
          rw [orderCreate_success_eq db u saId cart h1 hne h3 hstock] at h
          simp at h
        · rw [orderCreate_stock_exceeded db u saId cart h1 hne h3 h4]

end Shop

/-! Claim theorems. -/

/-- C1: Order creation splits the cart by seller.  For an authenticated user
whose resolved cart is non-empty and passes the stock check, and a shipping
address belonging to that user, `OrderViewSet.create` succeeds and creates
exactly one order per distinct seller occurring among the cart's products
(the created orders' sellers are pairwise distinct and are exactly the
sellers of the cart's products); each created order carries that seller, the
given shipping address and the default `Pending` status; and each created
order's line items are exactly the user's cart line items whose product
belongs to that order's seller, with product and quantity copied
unchanged. -/
theorem C1_order_splitting_by_seller (db : Shop.ShopDB) (u saId : Nat)
    (cart : List (Shop.CartLineItem × Shop.Product))
    (haddr : (db.addresses.any fun a => a.id == saId && a.userId == u) = true)
    (hne : (db.cartOf u).isEmpty = false)
    (hres : Shop.resolveCart db (db.cartOf u) = some cart)
    (hstock : ∀ x ∈ cart, x.1.quantity ≤ x.2.quantity) :
    ∃ db' os newItems,
      Shop.orderCreate db u saId = (db', .ok os) ∧
      db'.orders = db.orders ++ os ∧
      db'.orderItems = db.orderItems ++ newItems ∧
      (∀ o ∈ os, o.shippingAddressId = saId ∧ o.status = .pending) ∧
      (os.map Shop.Order.sellerId).Nodup ∧
      (∀ s, s ∈ os.map Shop.Order.sellerId ↔
        s ∈ cart.map fun x => x.2.sellerId) ∧
      (∀ o ∈ os,
        ((newItems.filter fun li => li.orderId == o.id).map fun li =>
            (li.productId, li.quantity)) =
          ((cart.filter fun x => x.2.sellerId == o.sellerId).map fun x =>
            (x.1.productId, x.1.quantity))) := by
  refine ⟨_, _, _,
    Shop.orderCreate_success_eq db u saId cart haddr hne hres hstock,
    rfl, rfl, ?_, ?_, ?_, ?_⟩
  · intro o ho
    have h := Shop.groupCart_orders_shape saId cart []
      db.nextOrderId db.nextOrderItemId o ho
    exact ⟨h.1, h.2.1⟩
  · exact Shop.groupCart_sellers_nodup saId cart [] _ _
  · intro s
    rw [Shop.groupCart_seller_mem]
    simp [Shop.lookupSellerOrder]
  · intro o ho
    exact Shop.groupCart_order_line_items saId cart [] _ _
      (fun kv hkv => by cases hkv) o ho

/-- C1 witness: in `sampleShopDB`, user 20 orders a three-item cart covering
sellers 1 and 2 to their own address 1. -/
theorem C1_order_splitting_by_seller_witness :
    ∃ db' os newItems,
      Shop.orderCreate sampleShopDB 20 1 = (db', .ok os) ∧
      db'.orders = sampleShopDB.orders ++ os ∧
      db'.orderItems = sampleShopDB.orderItems ++ newItems ∧
      (∀ o ∈ os, o.shippingAddressId = 1 ∧ o.status = .pending) ∧
      (os.map Shop.Order.sellerId).Nodup ∧
      (∀ s, s ∈ os.map Shop.Order.sellerId ↔
        s ∈ sampleCart.map fun x => x.2.sellerId) ∧
      (∀ o ∈ os,
        ((newItems.filter fun li => li.orderId == o.id).map fun li =>
            (li.productId, li.quantity)) =
          ((sampleCart.filter fun x => x.2.sellerId == o.sellerId).map fun x =>
            (x.1.productId, x.1.quantity))) :=
  C1_order_splitting_by_seller sampleShopDB 20 1 sampleCart
    (by decide) (by decide) (by decide) (by decide)

/-- C6: Order placement preconditions.  `OrderViewSet.create` fails with a
400 response when the shipping address does not exist or belongs to another
user, when the cart is empty, or when a cart quantity exceeds its product's
stock (the response listing exactly the offending products); and it creates
orders only when all three checks pass. -/
theorem C6_order_create_preconditions (db : Shop.ShopDB) (u saId : Nat) :
    ((db.addresses.any fun a => a.id == saId && a.userId == u) = false →
      Shop.orderCreate db u saId = (db, .error .invalidShippingAddress)) ∧
    ((db.addresses.any fun a => a.id == saId && a.userId == u) = true →
      db.cartOf u = [] →
      Shop.orderCreate db u saId = (db, .error .emptyCart)) ∧
    (∀ cart,
      (db.addresses.any fun a => a.id == saId && a.userId == u) = true →
      (db.cartOf u).isEmpty = false →
      Shop.resolveCart db (db.cartOf u) = some cart →
      (cart.filter fun x => decide (x.2.quantity < x.1.quantity)) ≠ [] →
      Shop.orderCreate db u saId =
        (db, .error (.quantityExceedsStock
          ((cart.filter fun x => decide (x.2.quantity < x.1.quantity)).map
            fun x => x.2)))) ∧
    (∀ db' os, Shop.orderCreate db u saId = (db', .ok os) →
      (db.addresses.any fun a => a.id == saId && a.userId == u) = true ∧
      (db.cartOf u).isEmpty = false ∧
      ∃ cart, Shop.resolveCart db (db.cartOf u) = some cart ∧
        ∀ x ∈ cart, x.1.quantity ≤ x.2.quantity) :=
  ⟨fun h => Shop.orderCreate_invalid_address db u saId h,
   fun h1 h2 => Shop.orderCreate_empty_cart db u saId h1 h2,
   fun cart h1 h2 h3 h4 =>
     Shop.orderCreate_stock_exceeded db u saId cart h1 h2 h3 h4,
   fun db' os h => Shop.orderCreate_ok_inversion db u saId db' os h⟩

/-- C6 witness: in `sampleShopDB`, address 2 belongs to user 21, so user 20
cannot order to it. -/
theorem C6_order_create_preconditions_witness :
    Shop.orderCreate sampleShopDB 20 2 =
      (sampleShopDB, .error .invalidShippingAddress) :=
  (C6_order_create_preconditions sampleShopDB 20 2).1 (by decide)

/-- C9: Order creation is atomic and clears the cart on success: every
failing request leaves the database unchanged, and a successful request
appends exactly the created orders and line items and deletes exactly the
requesting user's cart line items. -/
theorem C9_order_create_atomic (db : Shop.ShopDB) (u saId : Nat) :
    (∀ e, (Shop.orderCreate db u saId).2 = .error e →
      (Shop.orderCreate db u saId).1 = db) ∧
    (∀ db' os, Shop.orderCreate db u saId = (db', .ok os) →
      db'.cartItems = db.cartItems.filter (fun it => !(it.userId == u)) ∧
      db'.cartOf u = [] ∧
      db'.orders = db.orders ++ os ∧
      ∃ newItems, db'.orderItems = db.orderItems ++ newItems) := by
  constructor
  · exact fun e h => Shop.orderCreate_error_unchanged db u saId e h
  · intro db' os h
    obtain ⟨h1, h2, cart, h3, h4⟩ :=
      Shop.orderCreate_ok_inversion db u saId db' os h
    rw [Shop.orderCreate_success_eq db u saId cart h1 h2 h3 h4] at h
    injection h with hdb hos
    injection hos with hos
    subst hdb
    subst hos
    refine ⟨rfl, ?_, rfl, _, rfl⟩
    refine List.filter_eq_nil_iff.mpr fun a ha => ?_
    have h6 := (List.mem_filter.mp ha).2
    simp at h6 ⊢
    exact h6

/-- C9 witness: user 20's successful order in `sampleShopDB` clears their
cart and appends the created orders. -/
theorem C9_order_create_atomic_witness :
    (Shop.orderCreate sampleShopDB 20 1).1.cartItems =
      sampleShopDB.cartItems.filter (fun it => !(it.userId == 20)) ∧
    (Shop.orderCreate sampleShopDB 20 1).1.cartOf 20 = [] := by
  have h := (C9_order_create_atomic sampleShopDB 20 1).2
    (Shop.orderCreate sampleShopDB 20 1).1
    [⟨1, 1, 1, .pending⟩, ⟨2, 2, 1, .pending⟩] rfl
  exact ⟨h.1, h.2.1⟩


/-- C2: Order status transitions follow the explicit allow-list.  An update
of an order with current status `s` to status `t` is accepted by
`OrderSerializer.validate_status` iff `t` is in `Order.status_workflow[s]`;
otherwise it raises the validation error naming the allowed statuses; and the
allow-list is: Pending → Confirmed, Canceled; Confirmed → Shipping, Canceled;
Shipping → Completed, Canceled; Completed → nothing; Canceled → nothing. -/
theorem C2_status_workflow_allow_list :
    ∀ s t : Shop.OrderStatus,
      ((Shop.validate_status s t = .ok t) ↔ t ∈ Shop.status_workflow s) ∧
      (Shop.validate_status s t = .ok t ∨
        Shop.validate_status s t = .error (Shop.statusErrorMessage s)) ∧
      Shop.status_workflow .pending = [.confirmed, .canceled] ∧
      Shop.status_workflow .confirmed = [.shipping, .canceled] ∧
      Shop.status_workflow .shipping = [.completed, .canceled] ∧
      Shop.status_workflow .completed = [] ∧
      Shop.status_workflow .canceled = [] ∧
      Shop.statusErrorMessage .pending = "Allowed statuses: Confirmed, Canceled" ∧
      Shop.statusErrorMessage .completed = "Allowed statuses: " := by
  decide

/-- C5 counterexample: the order line item joining product 1 (owned by
seller 2) to order 1 (assigned to seller 1) satisfies every foreign-key and
uniqueness constraint of the schema yet is rejected by the model validation
`OrderLineItem.clean` — a validity condition that is not expressible as a
foreign-key or uniqueness constraint. -/
theorem C5_counterexample_clean_beyond_fk :
    Shop.orderLineItemFkUniqueOk mismatchShopDB ⟨1, 1, 1, 1⟩ = true ∧
    Shop.ShopDB.findProduct mismatchShopDB 1 = some ⟨1, 1, 2, 5, 100⟩ ∧
    (mismatchShopDB.orders.find? fun o => o.id == 1) = some ⟨1, 1, 1, .pending⟩ ∧
    Shop.orderLineItemCleanOk ⟨1, 1, 2, 5, 100⟩ ⟨1, 1, 1, .pending⟩ = false := by
  decide

/-- C5 amended: the data model does impose one validity condition beyond
foreign-key and uniqueness constraints — `OrderLineItem.clean` accepts a
stored order line item exactly when its product's seller equals its order's
seller. -/
theorem C5_clean_is_seller_match :
    ∀ (p : Shop.Product) (o : Shop.Order),
      Shop.orderLineItemCleanOk p o = true ↔ p.sellerId = o.sellerId := by
  intro p o
  simp [Shop.orderLineItemCleanOk]

/-- C3: Stock-quantity validation on the cart.  Creating a cart line item
or updating one with a requested quantity greater than the product's stock
raises the "Quantity exceeds the stock." validation error and leaves the
database unchanged; a request whose quantity does not exceed the stock never
trips this check. -/
theorem C3_cart_stock_validation (db : Shop.ShopDB) (u pid itemId qty : Nat)
    (p : Shop.Product) :
    (Shop.ShopDB.findProduct db pid = some p →
      Shop.sellerIsActiveFor db pid = true →
      p.quantity < qty →
      Shop.cartItemCreate db u pid (some qty) =
        (db, .error .quantityExceedsStock)) ∧
    (Shop.ShopDB.findProduct db pid = some p →
      qty ≤ p.quantity →
      (Shop.cartItemCreate db u pid (some qty)).2 ≠
        .error .quantityExceedsStock) ∧
    (∀ item, ((db.cartOf u).find? fun it => it.id == itemId) = some item →
      Shop.sellerIsActiveFor db item.productId = true →
      Shop.ShopDB.findProduct db item.productId = some p →
      p.quantity < qty →
      Shop.cartItemUpdate db u itemId (some qty) =
        (db, .error .quantityExceedsStock)) ∧
    (∀ item, ((db.cartOf u).find? fun it => it.id == itemId) = some item →
      Shop.ShopDB.findProduct db item.productId = some p →
      qty ≤ p.quantity →
      (Shop.cartItemUpdate db u itemId (some qty)).2 ≠
        .error .quantityExceedsStock) := by
  refine ⟨?_, ?_, ?_, ?_⟩
  · intro hp hact hlt
    have hp' := hp
    rw [Shop.ShopDB.findProduct] at hp'
    have hmem : p ∈ db.products := List.mem_of_find?_eq_some hp'
    have hpred := List.find?_some hp'
    have hany : (db.products.any fun q => q.id == pid) = true :=
      List.any_eq_true.mpr ⟨p, hmem, hpred⟩
    have hq : qty ≠ 0 := by omega
    simp [Shop.cartItemCreate, hany, hact, hp, hlt, hq]
  · intro hp hle h
    rw [Shop.cartItemCreate] at h
    dsimp only at h
    rw [hp] at h
    split at h
    · simp at h
    · split at h
      · simp at h
      · split at h
        next hcond =>
          simp at hcond
          omega
        · split at h
          · simp at h
          · simp at h
  · intro item hfind hact hp hlt
    have hq : qty ≠ 0 := by omega
    simp [Shop.cartItemUpdate, hfind, hact, hp, hlt, hq]
  · intro item hfind hp hle h
    rw [Shop.cartItemUpdate, hfind] at h
    dsimp only at h
    rw [hp] at h
    split at h
    · simp at h
    · split at h
      next hcond =>
        simp at hcond
        omega
      · simp at h

/-- C3 witness: in `sampleShopDB`, user 21 cannot add product 2 (stock 5)
with quantity 9, and user 20 cannot raise cart item 1 to quantity 99. -/
theorem C3_cart_stock_validation_witness :
    Shop.cartItemCreate sampleShopDB 21 2 (some 9) =
      (sampleShopDB, .error .quantityExceedsStock) ∧
    Shop.cartItemUpdate sampleShopDB 20 1 (some 99) =
      (sampleShopDB, .error .quantityExceedsStock) := by
  constructor
  · exact (C3_cart_stock_validation sampleShopDB 21 2 0 9 ⟨2, 1, 2, 5, 200⟩).1
      rfl rfl (by decide)
  · exact (C3_cart_stock_validation sampleShopDB 20 0 1 99 ⟨1, 1, 1, 5, 100⟩).2.2.1
      ⟨1, 20, 1, 2⟩ rfl rfl rfl (by decide)

namespace Shop

/-- Filtering by `q` after filtering by a predicate `p` implied by `q` is the
same as filtering by `q` alone. -/
theorem filter_filter_of_imp {α : Type} (p q : α → Bool)
    (h : ∀ a, q a = true → p a = true) :
    ∀ l : List α, (l.filter p).filter q = l.filter q := by
  intro l
  induction l with
  | nil => rfl
  | cons a l ih =>
    by_cases hp : p a = true
    · rw [List.filter_cons, if_pos hp, List.filter_cons, ih, List.filter_cons]
    · have hq : q a = false := by
        cases hqa : q a with
        | false => rfl
        | true => exact absurd (h a hqa) hp
      rw [List.filter_cons, if_neg hp, ih, List.filter_cons, hq]
      simp

/-- Mapping a row-update that fixes every row selected by `pred` and never
changes whether a row is selected leaves the `pred`-filtered rows unchanged. -/
theorem filter_map_update_eq {α : Type} (f : α → α) (pred : α → Bool)
    (hf : ∀ a, pred a = true → f a = a)
    (hpred : ∀ a, pred (f a) = pred a) :
    ∀ l : List α, (l.map f).filter pred = l.filter pred := by
  intro l
  induction l with
  | nil => rfl
  | cons a l ih =>
    rw [List.map_cons, List.filter_cons, List.filter_cons, hpred a]
    cases hq : pred a with
    | true => rw [hf a hq]; simp [ih]
    | false => simp [ih]

end Shop

/-- C10: Per-user data isolation.  The cart and shipping-address querysets
contain only rows owned by the requesting user; the order list returns only
orders whose shipping address belongs to the user (or, with `as_seller`,
whose seller profile belongs to the user); and none of the cart or
shipping-address mutations (create, update quantity, delete, clear cart)
changes any other user's rows. -/
theorem C10_per_user_isolation (db : Shop.ShopDB) (u : Nat) :
    (∀ it ∈ db.cartOf u, it.userId = u) ∧
    (∀ a ∈ db.addressesOf u, a.userId = u) ∧
    (∀ o ∈ Shop.orderListQueryset db u false,
      ((db.findAddress o.shippingAddressId).any fun a => a.userId == u) = true) ∧
    (∀ o ∈ Shop.orderListQueryset db u true,
      ((db.findSeller o.sellerId).any fun s => s.userId == u) = true) ∧
    ((Shop.cartClear db u).cartItems.filter fun it => !(it.userId == u)) =
      (db.cartItems.filter fun it => !(it.userId == u)) ∧
    (∀ itemId qty?,
      ((Shop.cartItemUpdate db u itemId qty?).1.cartItems.filter
          fun it => !(it.userId == u)) =
        (db.cartItems.filter fun it => !(it.userId == u))) ∧
    (∀ itemId,
      ((Shop.cartItemDestroy db u itemId).1.cartItems.filter
          fun it => !(it.userId == u)) =
        (db.cartItems.filter fun it => !(it.userId == u))) ∧
    (∀ pid qty?,
      ((Shop.cartItemCreate db u pid qty?).1.cartItems.filter
          fun it => !(it.userId == u)) =
        (db.cartItems.filter fun it => !(it.userId == u))) ∧
    (∀ aid,
      ((Shop.addressDestroy db u aid).1.addresses.filter
          fun a => !(a.userId == u)) =
        (db.addresses.filter fun a => !(a.userId == u))) ∧
    (∀ aid,
      ((Shop.addressCreate db u aid).addresses.filter
          fun a => !(a.userId == u)) =
        (db.addresses.filter fun a => !(a.userId == u))) := by
  refine ⟨?_, ?_, ?_, ?_, ?_, ?_, ?_, ?_, ?_, ?_⟩
  · intro it hit
    have h := (List.mem_filter.mp hit).2
    simpa using h
  · intro a ha
    have h := (List.mem_filter.mp ha).2
    simpa using h
  · intro o ho
    rw [Shop.orderListQueryset] at ho
    rw [if_neg Bool.false_ne_true] at ho
    exact (List.mem_filter.mp ho).2
  · intro o ho
    rw [Shop.orderListQueryset] at ho
    rw [if_pos rfl] at ho
    exact (List.mem_filter.mp ho).2
  · rw [Shop.cartClear]
    exact Shop.filter_filter_of_imp _ _ (fun a ha => ha) db.cartItems
  · intro itemId qty?
    rw [Shop.cartItemUpdate]
    split
    · rfl
    · split
      · rfl
      · dsimp only
        split
        · rfl
        · refine Shop.filter_map_update_eq _ _ ?_ ?_ db.cartItems
          · intro a ha
            have h1 : (a.userId == u) = false := by simpa using ha
            simp [h1]
          · intro a
            by_cases hc : (a.id == itemId && a.userId == u) = true
            · rw [if_pos hc]
            · rw [if_neg hc]
  · intro itemId
    rw [Shop.cartItemDestroy]
    split
    · refine Shop.filter_filter_of_imp _ _ ?_ db.cartItems
      intro a ha
      have h1 : (a.userId == u) = false := by simpa using ha
      simp [h1]
    · rfl
  · intro pid qty?
    rw [Shop.cartItemCreate]
    split
    · rfl
    · split
      · rfl
      · dsimp only
        split
        · rfl
        · split
          · rfl
          · simp [List.filter_append]
  · intro aid
    rw [Shop.addressDestroy]
    split
    · split
      · rfl
      · refine Shop.filter_filter_of_imp _ _ ?_ db.addresses
        intro a ha
        have h1 : (a.userId == u) = false := by simpa using ha
        simp [h1]
    · rfl
  · intro aid
    rw [Shop.addressCreate]
    simp [List.filter_append]

/-- C10 witness: in `sampleShopDB`, user 21's cart queryset owns its row and
clearing user 21's cart does not disturb other users' rows. -/
theorem C10_per_user_isolation_witness :
    (⟨4, 21, 1, 1⟩ : Shop.CartLineItem).userId = 21 ∧
    ((Shop.cartClear sampleShopDB 21).cartItems.filter
        fun it => !(it.userId == 21)) =
      (sampleShopDB.cartItems.filter fun it => !(it.userId == 21)) :=
  ⟨(C10_per_user_isolation sampleShopDB 21).1 ⟨4, 21, 1, 1⟩ (by decide),
   (C10_per_user_isolation sampleShopDB 21).2.2.2.2.1⟩

namespace Accounts

/-- With the user found and a truthy (non-empty) token value posted,
`protected_action` reduces to the token branch. -/
theorem protectedAction_token_eq (db : AccountsDB) (now uid : Nat)
    (v freshValue : String) (lifetime : Nat)
    (cb : User → Except (List String) (User × String)) (user : User)
    (hu : (db.users.find? fun w => w.id == uid) = some user)
    (hv : (v == "") = false) :
    protectedAction db now uid (some v) freshValue lifetime cb =
      match db.tokens.find? fun t => t.userId == uid && t.value == v with
      | none => (db, ⟨404, "Token does not exist."⟩)
      | some t =>
        if t.expiresAt < now then
          ({ db with tokens := db.tokens.filter fun t' =>
              !(t'.userId == uid && t'.value == v) },
           ⟨404, "Token has expired."⟩)
        else
          match cb user with
          | .ok (user', message) =>
            ({ users := db.users.map fun w => if w.id == uid then user' else w,
               tokens := db.tokens.filter fun t' =>
                 !(t'.userId == uid && t'.value == v) },
             ⟨200, message⟩)
          | .error messages =>
            ({ db with tokens := db.tokens.filter fun t' =>
                !(t'.userId == uid && t'.value == v) },
             ⟨400, String.intercalate " " messages⟩) := by
  rw [protectedAction, hu]
  simp only [Option.getD_some, hv]
  rfl

/-- A truthy token value matching no stored token of the user: 404 and no
state change. -/
theorem protectedAction_nomatch (db : AccountsDB) (now uid : Nat)
    (v freshValue : String) (lifetime : Nat)
    (cb : User → Except (List String) (User × String)) (user : User)
    (hu : (db.users.find? fun w => w.id == uid) = some user)
    (hv : (v == "") = false)
    (hfind : (db.tokens.find? fun t => t.userId == uid && t.value == v) = none) :
    protectedAction db now uid (some v) freshValue lifetime cb =
      (db, ⟨404, "Token does not exist."⟩) := by
  rw [protectedAction_token_eq db now uid v freshValue lifetime cb user hu hv,
    hfind]

/-- A matching token presented strictly after its expiry: the token is
deleted, the callback is not run, 404 "Token has expired.". -/
theorem protectedAction_expired (db : AccountsDB) (now uid : Nat)
    (v freshValue : String) (lifetime : Nat)
    (cb : User → Except (List String) (User × String)) (user : User)
    (t : UserToken)
    (hu : (db.users.find? fun w => w.id == uid) = some user)
    (hv : (v == "") = false)
    (hfind : (db.tokens.find? fun t' => t'.userId == uid && t'.value == v) = some t)
    (hexp : t.expiresAt < now) :
    protectedAction db now uid (some v) freshValue lifetime cb =
      ({ db with tokens := db.tokens.filter fun t' =>
          !(t'.userId == uid && t'.value == v) },
       ⟨404, "Token has expired."⟩) := by
  rw [protectedAction_token_eq db now uid v freshValue lifetime cb user hu hv,
    hfind]
  dsimp only
  rw [if_pos hexp]

/-- A matching token presented at or before its expiry with a succeeding
callback: the token is deleted, the callback's user update is applied,
200 with the callback's message. -/
theorem protectedAction_valid_ok (db : AccountsDB) (now uid : Nat)
    (v freshValue : String) (lifetime : Nat)
    (cb : User → Except (List String) (User × String)) (user user' : User)
    (message : String) (t : UserToken)
    (hu : (db.users.find? fun w => w.id == uid) = some user)
    (hv : (v == "") = false)
    (hfind : (db.tokens.find? fun t' => t'.userId == uid && t'.value == v) = some t)
    (hexp : ¬ t.expiresAt < now)
    (hcb : cb user = .ok (user', message)) :
    protectedAction db now uid (some v) freshValue lifetime cb =
      ({ users := db.users.map fun w => if w.id == uid then user' else w,
         tokens := db.tokens.filter fun t' =>
           !(t'.userId == uid && t'.value == v) },
       ⟨200, message⟩) := by
  rw [protectedAction_token_eq db now uid v freshValue lifetime cb user hu hv,
    hfind]
  dsimp only
  rw [if_neg hexp, hcb]

/-- A matching unexpired token with a failing callback: the token is still
deleted, the users are unchanged, 400 with the validation messages. -/
theorem protectedAction_valid_err (db : AccountsDB) (now uid : Nat)
    (v freshValue : String) (lifetime : Nat)
    (cb : User → Except (List String) (User × String)) (user : User)
    (messages : List String) (t : UserToken)
    (hu : (db.users.find? fun w => w.id == uid) = some user)
    (hv : (v == "") = false)
    (hfind : (db.tokens.find? fun t' => t'.userId == uid && t'.value == v) = some t)
    (hexp : ¬ t.expiresAt < now)
    (hcb : cb user = .error messages) :
    protectedAction db now uid (some v) freshValue lifetime cb =
      ({ db with tokens := db.tokens.filter fun t' =>
          !(t'.userId == uid && t'.value == v) },
       ⟨400, String.intercalate " " messages⟩) := by
  rw [protectedAction_token_eq db now uid v freshValue lifetime cb user hu hv,
    hfind]
  dsimp only
  rw [if_neg hexp, hcb]

/-- Issuing a token preserves the at-most-one-token-per-user invariant. -/
theorem sendTokenEmail_nodup (db : AccountsDB) (uid : Nat)
    (freshValue : String) (now lifetime : Nat)
    (h : (db.tokens.map UserToken.userId).Nodup) :
    ((sendTokenEmail db uid freshValue now lifetime).tokens.map
      UserToken.userId).Nodup := by
  rw [sendTokenEmail]
  dsimp only
  rw [List.map_append, List.nodup_append]
  refine ⟨((List.filter_sublist _).map UserToken.userId).nodup h, ?_, ?_⟩
  · simp
  · intro a ha
    obtain ⟨tkn, htk, rfl⟩ := List.mem_map.mp ha
    have h2 := (List.mem_filter.mp htk).2
    simp at h2 ⊢
    exact h2

/-- Deleting tokens preserves the at-most-one-token-per-user invariant. -/
theorem tokens_filter_nodup (l : List UserToken) (p : UserToken → Bool)
    (h : (l.map UserToken.userId).Nodup) :
    ((l.filter p).map UserToken.userId).Nodup :=
  ((List.filter_sublist _).map UserToken.userId).nodup h

end Accounts

/-- C4 counterexample: presenting the empty-string token value — a value that
matches no stored token — does not return 404 "Token does not exist.": the
walrus truthiness test in `protected_action` treats it as absent, so the code
sends a new token email and returns 200 "Email sent.". -/
theorem C4_counterexample_empty_token :
    (Accounts.verifyEndpoint sampleAccountsDB 5 1 (some "") "fresh" 100).2 =
      ⟨200, "Email sent."⟩ ∧
    (Accounts.verifyEndpoint sampleAccountsDB 5 1 (some "") "fresh" 100).2 ≠
      ⟨404, "Token does not exist."⟩ := by
  constructor
  · rfl
  · decide

/-- C4 (amended): token expiry for the protected verify/restore actions, for
any posted non-empty token value.  Presenting a matching token strictly after
its expiration returns 404 "Token has expired." with the token deleted and
the protected action not performed; presenting it at or before the
expiration deletes the token, performs the action and returns 200;
presenting a non-empty value matching no stored token of the user returns
404 "Token does not exist." with nothing changed.  (As stated the claim also
covered the empty-string value, where the code instead mails a fresh
token.) -/
theorem C4_token_expiry (db : Accounts.AccountsDB) (now uid : Nat)
    (v freshValue : String) (lifetime : Nat)
    (cb : Accounts.User → Except (List String) (Accounts.User × String))
    (user : Accounts.User)
    (hu : (db.users.find? fun w => w.id == uid) = some user)
    (hv : (v == "") = false) :
    (((db.tokens.find? fun t => t.userId == uid && t.value == v) = none →
      Accounts.protectedAction db now uid (some v) freshValue lifetime cb =
        (db, ⟨404, "Token does not exist."⟩))) ∧
    (∀ t, (db.tokens.find? fun t' => t'.userId == uid && t'.value == v) = some t →
      t.expiresAt < now →
      Accounts.protectedAction db now uid (some v) freshValue lifetime cb =
        ({ db with tokens := db.tokens.filter fun t' =>
            !(t'.userId == uid && t'.value == v) },
         ⟨404, "Token has expired."⟩)) ∧
    (∀ t user' message,
      (db.tokens.find? fun t' => t'.userId == uid && t'.value == v) = some t →
      now ≤ t.expiresAt →
      cb user = .ok (user', message) →
      Accounts.protectedAction db now uid (some v) freshValue lifetime cb =
        ({ users := db.users.map fun w => if w.id == uid then user' else w,
           tokens := db.tokens.filter fun t' =>
             !(t'.userId == uid && t'.value == v) },
         ⟨200, message⟩)) :=
  ⟨fun hfind =>
    Accounts.protectedAction_nomatch db now uid v freshValue lifetime cb user
      hu hv hfind,
   fun t hfind hexp =>
    Accounts.protectedAction_expired db now uid v freshValue lifetime cb user
      t hu hv hfind hexp,
   fun t user' message hfind hexp hcb =>
    Accounts.protectedAction_valid_ok db now uid v freshValue lifetime cb user
      user' message t hu hv hfind (Nat.not_lt.mpr hexp) hcb⟩

/-- C4 witness: in `sampleAccountsDB`, token "tok" expires at time 10;
presenting it at time 11 deletes it and returns 404 "Token has expired."
without verifying the email. -/
theorem C4_token_expiry_witness :
    Accounts.protectedAction sampleAccountsDB 11 1 (some "tok") "fresh" 100
        Accounts.verifyEmailCb =
      ({ users := [⟨1, "user@example.com", "oldhash", true, false⟩],
         tokens := [] },
       ⟨404, "Token has expired."⟩) :=
  (C4_token_expiry sampleAccountsDB 11 1 "tok" "fresh" 100
      Accounts.verifyEmailCb ⟨1, "user@example.com", "oldhash", true, false⟩
      rfl rfl).2.1
    ⟨1, "tok", 10⟩ rfl (by decide)

/-- C7: Password restore.  With a valid unexpired restore token, a password
accepted by the configured validators is hashed and stored as the user's
password with a 200 "Password reset." response; a password failing
validation leaves every user row (and in particular the stored password)
unchanged and yields a 400 validation error, the token having been consumed
in both cases. -/
theorem C7_password_restore (db : Accounts.AccountsDB) (now uid lifetime : Nat)
    (v freshValue pw : String)
    (pwErrors : String → List String) (makePassword : String → String)
    (user : Accounts.User) (t : Accounts.UserToken)
    (hu : (db.users.find? fun w => w.id == uid) = some user)
    (hv : (v == "") = false)
    (ht : (db.tokens.find? fun t' => t'.userId == uid && t'.value == v) = some t)
    (hexp : now ≤ t.expiresAt) :
    (pwErrors pw = [] →
      Accounts.restoreEndpoint db now uid (some v) (some pw) freshValue
          lifetime pwErrors makePassword =
        ({ users := db.users.map fun w =>
             if w.id == uid then { user with password := makePassword pw }
             else w,
           tokens := db.tokens.filter fun t' =>
             !(t'.userId == uid && t'.value == v) },
         ⟨200, "Password reset."⟩)) ∧
    (pwErrors pw ≠ [] →
      Accounts.restoreEndpoint db now uid (some v) (some pw) freshValue
          lifetime pwErrors makePassword =
        ({ users := db.users,
           tokens := db.tokens.filter fun t' =>
             !(t'.userId == uid && t'.value == v) },
         ⟨400, String.intercalate " " (pwErrors pw)⟩)) := by
  constructor
  · intro h
    have hcb : Accounts.resetPasswordCb pwErrors makePassword (some pw) user =
        .ok ({ user with password := makePassword pw }, "Password reset.") := by
      rw [Accounts.resetPasswordCb, h]
      rfl
    exact Accounts.protectedAction_valid_ok db now uid v freshValue lifetime
      _ user _ _ t hu hv ht (Nat.not_lt.mpr hexp) hcb
  · intro h
    have hne : (pwErrors pw).isEmpty = false := by
      simp [List.isEmpty_iff, h]
    have hcb : Accounts.resetPasswordCb pwErrors makePassword (some pw) user =
        .error (pwErrors pw) := by
      rw [Accounts.resetPasswordCb, hne]
      rfl
    exact Accounts.protectedAction_valid_err db now uid v freshValue lifetime
      _ user _ t hu hv ht (Nat.not_lt.mpr hexp) hcb

/-- C7 witness: in `sampleAccountsDB`, presenting token "tok" at time 5 with
the accepted password "longpassword" stores its hash and resets; with the
too-short password "pw" the stored password is unchanged and a 400 is
returned, the token being consumed either way. -/
theorem C7_password_restore_witness :
    Accounts.restoreEndpoint sampleAccountsDB 5 1 (some "tok")
        (some "longpassword") "fresh" 100 samplePwErrors sampleMakePassword =
      ({ users := [⟨1, "user@example.com", "hashed:longpassword", true, false⟩],
         tokens := [] },
       ⟨200, "Password reset."⟩) ∧
    Accounts.restoreEndpoint sampleAccountsDB 5 1 (some "tok") (some "pw")
        "fresh" 100 samplePwErrors sampleMakePassword =
      ({ users := [⟨1, "user@example.com", "oldhash", true, false⟩],
         tokens := [] },
       ⟨400, "This password is too short."⟩) :=
  ⟨(C7_password_restore sampleAccountsDB 5 1 100 "tok" "fresh" "longpassword"
      samplePwErrors sampleMakePassword
      ⟨1, "user@example.com", "oldhash", true, false⟩ ⟨1, "tok", 10⟩
      rfl rfl rfl (by decide)).1 rfl,
   (C7_password_restore sampleAccountsDB 5 1 100 "tok" "fresh" "pw"
      samplePwErrors sampleMakePassword
      ⟨1, "user@example.com", "oldhash", true, false⟩ ⟨1, "tok", 10⟩
      rfl rfl rfl (by decide)).2 (by decide)⟩

/-- C8: One token per user, single use.  Issuing a token preserves the
at-most-one-token-per-user invariant and leaves the user with exactly the
fresh token (any existing token is deleted first); every protected-action
request preserves the invariant; a presentation matching a stored token
(valid or expired) deletes it, so the same value immediately presented again
finds no token; and a non-empty value matching no stored token is
rejected. -/
theorem C8_one_token_per_user_single_use (db : Accounts.AccountsDB)
    (uid now lifetime : Nat) (v freshValue : String)
    (cb : Accounts.User → Except (List String) (Accounts.User × String))
    (tokenValue : Option String) :
    ((db.tokens.map Accounts.UserToken.userId).Nodup →
      ((Accounts.sendTokenEmail db uid freshValue now lifetime).tokens.map
        Accounts.UserToken.userId).Nodup) ∧
    ((Accounts.sendTokenEmail db uid freshValue now lifetime).tokens.filter
        (fun t => t.userId == uid) = [⟨uid, freshValue, now + lifetime⟩]) ∧
    ((db.tokens.map Accounts.UserToken.userId).Nodup →
      ((Accounts.protectedAction db now uid tokenValue freshValue lifetime
          cb).1.tokens.map Accounts.UserToken.userId).Nodup) ∧
    (∀ t user, (db.users.find? fun w => w.id == uid) = some user →
      (v == "") = false →
      (db.tokens.find? fun t' => t'.userId == uid && t'.value == v) = some t →
      ((Accounts.protectedAction db now uid (some v) freshValue lifetime
          cb).1.tokens.find? fun t' => t'.userId == uid && t'.value == v) =
        none) ∧
    (∀ user, (db.users.find? fun w => w.id == uid) = some user →
      (v == "") = false →
      (db.tokens.find? fun t' => t'.userId == uid && t'.value == v) = none →
      Accounts.protectedAction db now uid (some v) freshValue lifetime cb =
        (db, ⟨404, "Token does not exist."⟩)) := by
  refine ⟨?_, ?_, ?_, ?_, ?_⟩
  · exact Accounts.sendTokenEmail_nodup db uid freshValue now lifetime
  · rw [Accounts.sendTokenEmail]
    dsimp only
    rw [List.filter_append]
    have h1 : ((db.tokens.filter fun t => !(t.userId == uid)).filter
        fun t => t.userId == uid) = [] := by
      refine List.filter_eq_nil_iff.mpr fun t ht => ?_
      have h2 := (List.mem_filter.mp ht).2
      simp at h2 ⊢
      exact h2
    rw [h1]
    simp
  · intro h
    rw [Accounts.protectedAction]
    cases hu : db.users.find? fun w => w.id == uid with
    | none => exact h
    | some user =>
      dsimp only
      by_cases hvv : (tokenValue.getD "" == "") = true
      · rw [if_pos hvv]
        exact Accounts.sendTokenEmail_nodup db uid freshValue now lifetime h
      · rw [if_neg hvv]
        cases hfind : db.tokens.find? fun t =>
            t.userId == uid && t.value == tokenValue.getD "" with
        | none => exact h
        | some t =>
          dsimp only
          by_cases hexp : t.expiresAt < now
          · rw [if_pos hexp]
            exact Accounts.tokens_filter_nodup _ _ h
          · rw [if_neg hexp]
            cases hcb : cb user with
            | ok pr =>
              cases pr with
              | mk user' message => exact Accounts.tokens_filter_nodup _ _ h
            | error msgs => exact Accounts.tokens_filter_nodup _ _ h
  · intro t user hu hv hfind
    have htokens : (Accounts.protectedAction db now uid (some v) freshValue
        lifetime cb).1.tokens =
        db.tokens.filter fun t' => !(t'.userId == uid && t'.value == v) := by
      by_cases hexp : t.expiresAt < now
      · rw [Accounts.protectedAction_expired db now uid v freshValue lifetime
          cb user t hu hv hfind hexp]
      · cases hcb : cb user with
        | ok pr =>
          cases pr with
          | mk user' message =>
            rw [Accounts.protectedAction_valid_ok db now uid v freshValue
              lifetime cb user user' message t hu hv hfind hexp hcb]
        | error msgs =>
          rw [Accounts.protectedAction_valid_err db now uid v freshValue
            lifetime cb user msgs t hu hv hfind hexp hcb]
    rw [htokens]
    refine List.find?_eq_none.mpr fun x hx => ?_
    have h2 := (List.mem_filter.mp hx).2
    simp at h2 ⊢
    tauto
  · intro user hu hv hfind
    exact Accounts.protectedAction_nomatch db now uid v freshValue lifetime cb
      user hu hv hfind

/-- C8 witness: in `sampleAccountsDB`, presenting the stored token "tok"
deletes it, so it cannot be found (and hence not accepted) again. -/
theorem C8_one_token_per_user_single_use_witness :
    ((Accounts.protectedAction sampleAccountsDB 5 1 (some "tok") "fresh" 100
        Accounts.verifyEmailCb).1.tokens.find? fun t' =>
      t'.userId == 1 && t'.value == "tok") = none :=
  (C8_one_token_per_user_single_use sampleAccountsDB 1 5 100 "tok" "fresh"
      Accounts.verifyEmailCb (some "tok")).2.2.2.1
    ⟨1, "tok", 10⟩ ⟨1, "user@example.com", "oldhash", true, false⟩
    rfl rfl rfl
